import Mathlib

/-!
Verification of the auto-update orchestrator of `src/electron/main/updater.ts`
(class `AppUpdater` and the helper `detectChannel`).

The embedding is a faithful translation of the TypeScript source:

* `detectChannel` models the regex search for `-([a-zA-Z]+)` in `version`:
  the leftmost hyphen that is immediately followed by an ASCII letter wins,
  and the captured group is the maximal letter run after it.
* `UpdaterState` collects the mutable fields of the `AppUpdater` instance
  (`status`, `nativeSquirrelReady`, `autoInstallCountdown`, `autoInstallTimer`,
  `squirrelFallbackTimer`, `autoInstallCancelled`) together with the
  event-loop bookkeeping that JavaScript keeps implicitly: the multiset of
  `setTimeout` handles that are actually scheduled (`pendingFallbacks` — the
  field `squirrelFallbackTimer` can be overwritten without clearing, which
  orphans a still-scheduled timer), and the list of `once`-listeners
  registered on the native Squirrel emitter (`onReadyListeners`).
  Instrumentation fields record the observable behaviour: `published` is the
  stream of `update:auto-install-countdown` renderer events (seconds and the
  `cancelled` flag), `installs` counts calls of `quitAndInstall`, and
  `countdownStarts` is a spy counter for `startAutoInstallCountdown`.
* The external payload types `UpdateInfo` and `ProgressInfo` of
  electron-updater are opaque to the orchestrator; they are modelled as
  `Nat` tokens.  Error messages are `String`s.
* `quitAndInstall` is modelled as bumping the `installs` counter; its
  macOS safety timer only forces `app.quit()` and never feeds back into the
  updater state, so it is outside the scope of the claims proved here.
-/

namespace ClawXUpdater

/-- The seven status tags of `UpdateStatus` (updater.ts line 19). -/
inductive StatusTag where
  | idle
  | checking
  | available
  | notAvailable
  | downloading
  | downloaded
  | error
deriving DecidableEq

/-- `UpdateStatus` (updater.ts lines 18–23): a tag plus optional payload
fields `info`, `progress`, `error`.  `UpdateInfo`/`ProgressInfo` are opaque
external payloads, modelled as `Nat` tokens. -/
@[ext]
structure UpdateStatus where
  status : StatusTag
  info : Option Nat := none
  progress : Option Nat := none
  error : Option String := none
deriving DecidableEq

/-- A `Partial<UpdateStatus>` argument of `updateStatus`: a field is `some`
exactly when the corresponding key is present in the object literal passed
at the call site. -/
structure StatusPatch where
  status : Option StatusTag := none
  info : Option Nat := none
  progress : Option Nat := none
  error : Option String := none
deriving DecidableEq

/-- The spread merge `{ ...this.status, ...newStatus }` of
`AppUpdater.updateStatus` (line 194): keys present in the patch replace the
old value, all other keys are retained. -/
def mergeStatus (u : UpdateStatus) (p : StatusPatch) : UpdateStatus :=
  { status := p.status.getD u.status
    info := p.info.or u.info
    progress := p.progress.or u.progress
    error := p.error.or u.error }

/-- The mutable state of one `AppUpdater` instance plus the event-loop
bookkeeping and observation counters described in the file header. -/
@[ext]
structure UpdaterState where
  status : UpdateStatus
  nativeSquirrelReady : Bool
  autoInstallTimer : Bool
  autoInstallCountdown : Int
  squirrelFallbackTimer : Option Nat
  autoInstallCancelled : Bool
  pendingFallbacks : List Nat
  onReadyListeners : List Nat
  nextId : Nat
  published : List (Int × Bool)
  installs : Nat
  countdownStarts : Nat
  darwin : Bool
  autoDownload : Bool
deriving DecidableEq

/-- `AUTO_INSTALL_DELAY_SECONDS` (line 65). -/
def autoInstallDelaySeconds : Int := 5

/-- `updateStatus` (lines 193–196): merge the patch into the current status
(the renderer notification carries no extra state). -/
def updateStatus (s : UpdaterState) (p : StatusPatch) : UpdaterState :=
  { s with status := mergeStatus s.status p }

/-- `clearAutoInstallTimer` (lines 342–347): stop the countdown interval. -/
def clearAutoInstallTimer (s : UpdaterState) : UpdaterState :=
  { s with autoInstallTimer := false }

/-- `clearSquirrelFallbackTimer` (lines 349–354): if the field holds a
handle, cancel that scheduled timeout and null the field. -/
def clearSquirrelFallbackTimer (s : UpdaterState) : UpdaterState :=
  match s.squirrelFallbackTimer with
  | some g =>
      { s with pendingFallbacks := s.pendingFallbacks.erase g
               squirrelFallbackTimer := none }
  | none => s

/-- `quitAndInstall` (lines 269–282), observed through the install counter;
the external quit/restart action and the macOS safety timer do not feed back
into the updater state. -/
def quitAndInstall (s : UpdaterState) : UpdaterState :=
  { s with installs := s.installs + 1 }

/-- `startAutoInstallCountdown` (lines 288–302): clear any previous
countdown interval, reset the counter to the fixed delay, publish the
initial tick, and arm the interval.  `countdownStarts` is the spy counter. -/
def startAutoInstallCountdown (s : UpdaterState) : UpdaterState :=
  let s := clearAutoInstallTimer s
  { s with autoInstallCountdown := autoInstallDelaySeconds
           published := s.published ++ [(autoInstallDelaySeconds, false)]
           autoInstallTimer := true
           countdownStarts := s.countdownStarts + 1 }

/-- One firing of the countdown interval callback (lines 293–301).  A
cleared interval never fires, so on a state with no armed interval the
step is the identity. -/
def tick (s : UpdaterState) : UpdaterState :=
  if s.autoInstallTimer then
    let c := s.autoInstallCountdown - 1
    let s := { s with autoInstallCountdown := c
                      published := s.published ++ [(c, false)] }
    if c ≤ 0 then quitAndInstall (clearAutoInstallTimer s) else s
  else s

/-- `cancelAutoInstall` (lines 335–340). -/
def cancelAutoInstall (s : UpdaterState) : UpdaterState :=
  let s := { s with autoInstallCancelled := true }
  let s := clearSquirrelFallbackTimer s
  let s := clearAutoInstallTimer s
  { s with published := s.published ++ [((-1 : Int), true)] }

/-- `waitForSquirrelThenAutoInstall` (lines 308–330): reset the cancelled
flag, register a fresh `once` listener `onReady` on the native updater, and
schedule a fresh fallback timeout, overwriting the handle field.  The old
handle is **not** cleared first, so a previously scheduled timeout stays
pending (orphaned) — this is exactly what the source does. -/
def waitForSquirrelThenAutoInstall (s : UpdaterState) : UpdaterState :=
  let s := { s with autoInstallCancelled := false }
  let g := s.nextId
  { s with onReadyListeners := s.onReadyListeners ++ [g]
           pendingFallbacks := s.pendingFallbacks ++ [g]
           squirrelFallbackTimer := some g
           nextId := g + 1 }

/-- Body of the `onReady` closure (lines 312–317): clear the fallback
timer, then start the countdown unless a cancellation was issued. -/
def onReadyBody (s : UpdaterState) : UpdaterState :=
  let s := clearSquirrelFallbackTimer s
  if s.autoInstallCancelled then s else startAutoInstallCountdown s

/-- The native Squirrel emitter fires `update-downloaded`: the constructor
listener (line 121) sets `nativeSquirrelReady`, then every registered
`once` listener runs (in registration order) and is removed. -/
def nativeReadyFires (s : UpdaterState) : UpdaterState :=
  let s := { s with nativeSquirrelReady := true }
  let ls := s.onReadyListeners
  let s := { s with onReadyListeners := [] }
  ls.foldl (fun t _ => onReadyBody t) s

/-- The scheduled fallback timeout `g` expires (lines 321–329).  Only a
timeout that is still scheduled can fire; its callback nulls the handle
field unconditionally, removes its own `onReady` listener, and starts the
countdown unless cancelled or a countdown interval is already running. -/
def fallbackFires (g : Nat) (s : UpdaterState) : UpdaterState :=
  if g ∈ s.pendingFallbacks then
    let s := { s with pendingFallbacks := s.pendingFallbacks.erase g }
    let s := { s with squirrelFallbackTimer := none }
    let s := { s with onReadyListeners := s.onReadyListeners.erase g }
    if s.autoInstallCancelled then s
    else if s.autoInstallTimer then s
    else startAutoInstallCountdown s
  else s

/-- Event-loop occurrences that can reach the updater: the electron-updater
events wired in `setupListeners` (lines 150–188), the native Squirrel ready
signal, the expiry of a scheduled fallback timeout, one countdown interval
tick, a user cancellation, and `setAutoDownload` (line 366). -/
inductive Occ where
  | checking
  | available (info : Nat)
  | notAvailable (info : Nat)
  | progress (p : Nat)
  | downloadedEvt (info : Nat)
  | errorEvt (msg : String)
  | nativeReady
  | fallback (g : Nat)
  | tick
  | cancel
  | setAutoDownload (b : Bool)
deriving DecidableEq

/-- The handlers of `setupListeners` (lines 150–188) plus the timer and
cancellation occurrences.  The `update-downloaded` handler (lines 171–182)
updates the status and, when `autoDownload` is set, either enters the
Squirrel staging wait (on darwin with Squirrel not yet ready) or starts the
countdown directly. -/
def applyOcc (s : UpdaterState) : Occ → UpdaterState
  | .checking => updateStatus s { status := some .checking }
  | .available i => updateStatus s { status := some .available, info := some i }
  | .notAvailable i => updateStatus s { status := some .notAvailable, info := some i }
  | .progress p => updateStatus s { status := some .downloading, progress := some p }
  | .downloadedEvt i =>
      let s := updateStatus s { status := some .downloaded, info := some i }
      if s.autoDownload then
        if s.darwin ∧ s.nativeSquirrelReady = false then
          waitForSquirrelThenAutoInstall s
        else startAutoInstallCountdown s
      else s
  | .errorEvt m => updateStatus s { status := some .error, error := some m }
  | .nativeReady => nativeReadyFires s
  | .fallback g => fallbackFires g s
  | .tick => tick s
  | .cancel => cancelAutoInstall s
  | .setAutoDownload b => { s with autoDownload := b }

/-- Apply a list of occurrences in order. -/
def applyOccs (s : UpdaterState) (os : List Occ) : UpdaterState :=
  os.foldl applyOcc s

/-- The dev-mode message of `checkForUpdates` (line 225). -/
def devModeMsg : String := "Update check skipped (dev mode – app is not packaged)"

/-- The three ways the awaited `autoUpdater.checkForUpdates()` call can
resolve, each together with the occurrences that fired on the event loop
while the call was outstanding: it can reject with a failure message,
resolve to `null` (dev mode), or resolve to a result whose `updateInfo`
may be absent. -/
inductive CheckOutcome where
  | raises (emitted : List Occ) (msg : String)
  | returnsNull (emitted : List Occ)
  | returnsResult (emitted : List Occ) (updateInfo : Option Nat)
deriving DecidableEq

/-- `checkForUpdates` (lines 215–241): await the external call (applying
whatever occurrences fired meanwhile), then

* `null` result ⇒ force an `error` status with the dev-mode message and
  return no update;
* normal result ⇒ if the status is still `checking`/`idle`, force a
  `not-available` transition; return `result.updateInfo || null`;
* rejection ⇒ set an `error` status carrying the failure message and
  re-raise it. -/
def checkForUpdates (s : UpdaterState) :
    CheckOutcome → UpdaterState × Except String (Option Nat)
  | .raises ev m =>
      let s := applyOccs s ev
      (updateStatus s { status := some .error, error := some m }, .error m)
  | .returnsNull ev =>
      let s := applyOccs s ev
      (updateStatus s { status := some .error, error := some devModeMsg }, .ok none)
  | .returnsResult ev info =>
      let s := applyOccs s ev
      let s :=
        if s.status.status = .checking ∨ s.status.status = .idle then
          updateStatus s { status := some .notAvailable }
        else s
      (s, .ok info)

/-- An action in a whole-life trace of the updater: an event-loop
occurrence, or a complete `checkForUpdates` call with its outcome. -/
inductive Act where
  | occ (o : Occ)
  | check (c : CheckOutcome)
deriving DecidableEq

/-- State effect of one action. -/
def applyAct (s : UpdaterState) : Act → UpdaterState
  | .occ o => applyOcc s o
  | .check c => (checkForUpdates s c).1

/-- Apply a trace of actions in order. -/
def applyActs (s : UpdaterState) (as : List Act) : UpdaterState :=
  as.foldl applyAct s

/-- The freshly constructed `AppUpdater` (constructor, lines 79–131):
status `idle`, no timers, `autoDownload = false` (line 83); `darwin`
records the platform the process runs on. -/
def initialState (darwin : Bool) : UpdaterState :=
  { status := { status := .idle }
    nativeSquirrelReady := false
    autoInstallTimer := false
    autoInstallCountdown := 0
    squirrelFallbackTimer := none
    autoInstallCancelled := false
    pendingFallbacks := []
    onReadyListeners := []
    nextId := 0
    published := []
    installs := 0
    countdownStarts := 0
    darwin := darwin
    autoDownload := false }

/-- ASCII letter test, the character class `[a-zA-Z]` of the regex in
`detectChannel` (line 40). -/
def isAsciiLetter (c : Char) : Bool :=
  ('a' ≤ c && c ≤ 'z') || ('A' ≤ c && c ≤ 'Z')

/-- Head of a character list is an ASCII letter. -/
def headIsLetter : List Char → Bool
  | [] => false
  | c :: _ => isAsciiLetter c

/-- The regex search for `-([a-zA-Z]+)` in `version` (line 40): scan left
to right for a hyphen immediately followed by an ASCII letter; the captured
group is the maximal letter run after that hyphen. -/
def findTag : List Char → Option (List Char)
  | [] => none
  | c :: cs =>
      if c = '-' ∧ headIsLetter cs then some (cs.takeWhile isAsciiLetter)
      else findTag cs

/-- The stable default channel `'latest'` (line 41). -/
def latestChannel : List Char := ['l', 'a', 't', 'e', 's', 't']

/-- `detectChannel` (lines 39–42) over the version string's characters. -/
def detectChannel (v : List Char) : List Char :=
  match findTag v with
  | some tag => tag
  | none => latestChannel

/-- ASCII digit test. -/
def isDigitChar (c : Char) : Bool := '0' ≤ c && c ≤ '9'

/-- A character allowed in the `<core>` part of a semver core: a digit or
a dot. -/
def isCoreChar (c : Char) : Bool := isDigitChar c || c = '.'

/-- Modelled from the spec: a version string "matches `<core>-<tag>.<n>`"
when it decomposes as a nonempty digits-and-dots core, a hyphen, a nonempty
ASCII-letter prerelease tag, a dot, and a nonempty digit sequence. -/
def MatchesCoreTagNum (v : List Char) : Prop :=
  ∃ core tag n : List Char,
    core ≠ [] ∧ core.all isCoreChar = true ∧
    tag ≠ [] ∧ tag.all isAsciiLetter = true ∧
    n ≠ [] ∧ n.all isDigitChar = true ∧
    v = core ++ '-' :: (tag ++ '.' :: n)

/-- Modelled from the spec: executable recogniser for `<core>-<tag>.<n>`,
returning the tag on a match. -/
def specTag (v : List Char) : Option (List Char) :=
  let core := v.takeWhile isCoreChar
  let rest := v.dropWhile isCoreChar
  match core, rest with
  | [], _ => none
  | _ :: _, '-' :: r2 =>
      let tag := r2.takeWhile isAsciiLetter
      let r3 := r2.dropWhile isAsciiLetter
      match tag, r3 with
      | [], _ => none
      | _ :: _, '.' :: r4 =>
          if r4 ≠ [] ∧ r4.all isDigitChar = true then some tag else none
      | _ :: _, _ => none
  | _ :: _, _ => none

/-- A hyphen immediately followed by an ASCII letter occurs somewhere in
the string. -/
def hasHyphenLetter : List Char → Bool
  | [] => false
  | c :: cs => (decide (c = '-') && headIsLetter cs) || hasHyphenLetter cs

/-- The concrete version string `1.0.0+build-x`: a semver with build
metadata only, no prerelease label. -/
def cexVersion : List Char :=
  ['1', '.', '0', '.', '0', '+', 'b', 'u', 'i', 'l', 'd', '-', 'x']

lemma takeWhile_all_append (p : Char → Bool) (l : List Char) (c : Char)
    (w : List Char) (hl : ∀ x ∈ l, p x = true) (hc : p c = false) :
    (l ++ c :: w).takeWhile p = l ∧ (l ++ c :: w).dropWhile p = c :: w := by
  induction l with
  | nil => simp [List.takeWhile_cons, List.dropWhile_cons, hc]
  | cons a l ih =>
      have ha : p a = true := hl a (by simp)
      have h' := ih (fun x hx => hl x (by simp [hx]))
      simp [List.takeWhile_cons, List.dropWhile_cons, ha, h'.1, h'.2]

lemma findTag_append_no_hyphen (l w : List Char) (h : ∀ x ∈ l, x ≠ '-') :
    findTag (l ++ w) = findTag w := by
  induction l with
  | nil => simp
  | cons a l ih =>
      have ha : a ≠ '-' := h a (by simp)
      have hcond : ¬(a = '-' ∧ headIsLetter (l ++ w) = true) := fun hh => ha hh.1
      rw [List.cons_append, findTag, if_neg hcond]
      exact ih (fun x hx => h x (by simp [hx]))

lemma coreChar_ne_hyphen {x : Char} (h : isCoreChar x = true) : x ≠ '-' := by
  intro hx
  rw [hx] at h
  exact absurd h (by decide)

lemma detectChannel_assembled (core tag n : List Char)
    (hc : core.all isCoreChar = true)
    (ht0 : tag ≠ []) (ht : tag.all isAsciiLetter = true) :
    detectChannel (core ++ '-' :: (tag ++ '.' :: n)) = tag := by
  have hcall : ∀ x ∈ core, x ≠ '-' := by
    intro x hx
    exact coreChar_ne_hyphen (by
      have := List.all_eq_true.mp hc x hx
      simpa using this)
  obtain ⟨t0, ts, rfl⟩ := List.exists_cons_of_ne_nil ht0
  have htall : ∀ x ∈ t0 :: ts, isAsciiLetter x = true := by
    intro x hx
    simpa using List.all_eq_true.mp ht x hx
  have ht0l : isAsciiLetter t0 = true := htall t0 (by simp)
  have htw := takeWhile_all_append isAsciiLetter (t0 :: ts) '.' n htall (by decide)
  rw [detectChannel, findTag_append_no_hyphen _ _ hcall]
  rw [findTag]
  rw [if_pos (by exact ⟨rfl, by simpa [headIsLetter] using ht0l⟩)]
  simpa using htw.1

lemma specTag_assembled (core tag n : List Char)
    (hc0 : core ≠ []) (hc : core.all isCoreChar = true)
    (ht0 : tag ≠ []) (ht : tag.all isAsciiLetter = true)
    (hn0 : n ≠ []) (hn : n.all isDigitChar = true) :
    specTag (core ++ '-' :: (tag ++ '.' :: n)) = some tag := by
  have hcall : ∀ x ∈ core, isCoreChar x = true := by
    intro x hx
    simpa using List.all_eq_true.mp hc x hx
  have hcw := takeWhile_all_append isCoreChar core '-' (tag ++ '.' :: n) hcall (by decide)
  obtain ⟨c0, cs, rfl⟩ := List.exists_cons_of_ne_nil hc0
  obtain ⟨t0, ts, rfl⟩ := List.exists_cons_of_ne_nil ht0
  have htall : ∀ x ∈ t0 :: ts, isAsciiLetter x = true := by
    intro x hx
    simpa using List.all_eq_true.mp ht x hx
  have htw := takeWhile_all_append isAsciiLetter (t0 :: ts) '.' n htall (by decide)
  rw [specTag]
  simp only [hcw.1, hcw.2, htw.1, htw.2]
  simp [hn0, hn]

/-- Claim C5 (counterexample): the version string `1.0.0+build-x` does not
match `<core>-<tag>.<n>` (it has no prerelease label at all, only build
metadata), yet `detectChannel` returns `x`, not `latest`: the regex accepts
any hyphen followed by letters anywhere in the string. -/
theorem detect_channel_claim_false :
    detectChannel cexVersion ≠ latestChannel ∧ ¬MatchesCoreTagNum cexVersion := by
  refine ⟨by decide, ?_⟩
  rintro ⟨core, tag, n, h1, h2, h3, h4, h5, h6, h7⟩
  have hs := specTag_assembled core tag n h1 h2 h3 h4 h5 h6
  rw [← h7] at hs
  have h0 : specTag cexVersion = none := by decide
  rw [h0] at hs
  exact Option.noConfusion hs

lemma takeWhile_all (p : Char → Bool) (l : List Char)
    (hl : ∀ x ∈ l, p x = true) : l.takeWhile p = l := by
  induction l with
  | nil => rfl
  | cons a l ih =>
      have ha : p a = true := hl a (by simp)
      simp [List.takeWhile_cons, ha, ih (fun x hx => hl x (by simp [hx]))]

lemma takeWhile_letters (run rest : List Char)
    (hr : ∀ x ∈ run, isAsciiLetter x = true) (hrest : headIsLetter rest = false) :
    (run ++ rest).takeWhile isAsciiLetter = run := by
  cases rest with
  | nil => rw [List.append_nil]; exact takeWhile_all _ _ hr
  | cons c w =>
      exact (takeWhile_all_append isAsciiLetter run c w hr
        (by simpa [headIsLetter] using hrest)).1

lemma headIsLetter_append (cs w : List Char) (h : cs ≠ []) :
    headIsLetter (cs ++ w) = headIsLetter cs := by
  cases cs with
  | nil => exact absurd rfl h
  | cons d ds => rfl

/-- `findTag` skips any prefix containing no hyphen immediately followed by
an ASCII letter, provided the remainder does not begin with a letter (so no
match straddles the boundary). -/
lemma findTag_append_of_no_match (pre w : List Char)
    (hp : hasHyphenLetter pre = false) (hw : headIsLetter w = false) :
    findTag (pre ++ w) = findTag w := by
  induction pre with
  | nil => rfl
  | cons c cs ih =>
      rw [hasHyphenLetter, Bool.or_eq_false_iff, Bool.and_eq_false_iff] at hp
      rw [List.cons_append, findTag, if_neg ?_]
      · exact ih hp.2
      · rintro ⟨hc, hl⟩
        rcases hp.1 with h | h
        · rw [hc] at h
          exact absurd h (by decide)
        · cases cs with
          | nil =>
              rw [List.nil_append] at hl
              rw [hl] at hw
              exact Bool.noConfusion hw
          | cons d ds =>
              rw [headIsLetter_append (d :: ds) w (by simp)] at hl
              rw [hl] at h
              exact Bool.noConfusion h

/-- The regex semantics in full: if the string decomposes as a prefix with
no hyphen-followed-by-letter, then a hyphen, then a nonempty maximal
ASCII-letter run, `detectChannel` returns that run. -/
lemma detectChannel_first_hyphen (pre run rest : List Char)
    (hp : hasHyphenLetter pre = false) (hr0 : run ≠ [])
    (hr : run.all isAsciiLetter = true) (hrest : headIsLetter rest = false) :
    detectChannel (pre ++ '-' :: (run ++ rest)) = run := by
  have hrall : ∀ x ∈ run, isAsciiLetter x = true := by
    intro x hx
    simpa using List.all_eq_true.mp hr x hx
  obtain ⟨r0, rs, rfl⟩ := List.exists_cons_of_ne_nil hr0
  rw [detectChannel,
    findTag_append_of_no_match pre ('-' :: (r0 :: rs ++ rest)) hp rfl]
  rw [findTag, if_pos ⟨rfl, by simpa [headIsLetter] using hrall r0 (by simp)⟩]
  rw [takeWhile_letters _ _ hrall hrest]

/-- Claim C5 (amended): if `v` matches `<core>-<tag>.<n>` the resolver
returns `tag`, as claimed.  More generally, whenever `v` decomposes as
`pre ++ [hyphen] ++ run ++ rest` with no hyphen-immediately-followed-by-a-
letter in `pre`, `run` a nonempty ASCII-letter sequence, and `rest` not
starting with a letter, the resolver returns `run` — the maximal letter run
after the first hyphen that is immediately followed by a letter (e.g.
`1.0.0-rc` gives `rc` and `1.0.0+build-x` gives `x`).  When no hyphen in
`v` is immediately followed by a letter, the resolver returns `latest`. -/
theorem detect_channel_amended :
    (∀ core tag n : List Char,
        core.all isCoreChar = true → tag ≠ [] → tag.all isAsciiLetter = true →
        detectChannel (core ++ '-' :: (tag ++ '.' :: n)) = tag) ∧
    (∀ pre run rest : List Char,
        hasHyphenLetter pre = false → run ≠ [] → run.all isAsciiLetter = true →
        headIsLetter rest = false →
        detectChannel (pre ++ '-' :: (run ++ rest)) = run) ∧
    (∀ v : List Char, hasHyphenLetter v = false → detectChannel v = latestChannel) := by
  refine ⟨?_, ?_, ?_⟩
  · intro core tag n hc ht0 ht
    exact detectChannel_assembled core tag n hc ht0 ht
  · intro pre run rest hp hr0 hr hrest
    exact detectChannel_first_hyphen pre run rest hp hr0 hr hrest
  · intro v hv
    rw [detectChannel]
    suffices h : findTag v = none by rw [h]
    induction v with
    | nil => rfl
    | cons c cs ih =>
        rw [hasHyphenLetter, Bool.or_eq_false_iff, Bool.and_eq_false_iff] at hv
        rw [findTag, if_neg ?_]
        · exact ih hv.2
        · rintro ⟨hc, hl⟩
          rcases hv.1 with h | h
          · rw [hc] at h
            exact absurd h (by decide)
          · rw [hl] at h
            exact Bool.noConfusion h

/-- Claim C5 (witness): `0.1.8-alpha.0` resolves to `alpha`, `1.0.0-rc`
(prerelease label without a `.n` suffix) resolves to `rc`, and `1.0.0`
resolves to `latest`. -/
theorem detect_channel_amended_witness :
    detectChannel (['0', '.', '1', '.', '8'] ++ '-' ::
        (['a', 'l', 'p', 'h', 'a'] ++ '.' :: ['0'])) = ['a', 'l', 'p', 'h', 'a'] ∧
    detectChannel (['1', '.', '0', '.', '0'] ++ '-' :: (['r', 'c'] ++ [])) = ['r', 'c'] ∧
    detectChannel ['1', '.', '0', '.', '0'] = latestChannel :=
  ⟨detect_channel_amended.1 _ _ _ (by decide) (by decide) (by decide),
   detect_channel_amended.2.1 _ _ _ (by decide) (by decide) (by decide) (by decide),
   detect_channel_amended.2.2 _ (by decide)⟩

/-- The countdown events published by the first `n` interval ticks after a
start: `4, 3, …, 5 - n`. -/
def tickPub (n : Nat) : List (Int × Bool) :=
  (List.range n).map (fun (i : Nat) => ((4 - (i : Int), false)))

/-- The countdown events published by a start followed by `n` interval
ticks: `5, 4, …, 5 - n`. -/
def prefixPub (n : Nat) : List (Int × Bool) :=
  (List.range (n + 1)).map (fun (i : Nat) => ((5 - (i : Int), false)))

/-- The full event delta of a countdown run observed for `n` ticks: after
the fifth tick the interval is cleared and nothing more is published. -/
def pubOf (n : Nat) : List (Int × Bool) := prefixPub (min n 5)

lemma tickPub_succ (n : Nat) :
    tickPub (n + 1) = tickPub n ++ [((4 - (n : Int), false))] := by
  rw [tickPub, List.range_succ, List.map_append, tickPub]
  simp

lemma prefixPub_eq_cons (n : Nat) :
    prefixPub n = ((5 : Int), false) :: tickPub n := by
  rw [prefixPub, List.range_succ_eq_map, List.map_cons, List.map_map, tickPub]
  refine congrArg₂ _ (by norm_num) (List.map_congr_left ?_)
  intro i _
  simp only [Function.comp_apply]
  refine congrArg₂ _ ?_ rfl
  push_cast
  ring

lemma tick_off {s : UpdaterState} (h : s.autoInstallTimer = false) :
    tick s = s := by
  simp [tick, h]

lemma tickN_off {s : UpdaterState} (h : s.autoInstallTimer = false) :
    ∀ m, tick^[m] s = s := by
  intro m
  induction m with
  | zero => rfl
  | succ m ih => rw [Function.iterate_succ_apply, tick_off h, ih]

lemma tick_run {s : UpdaterState} (h : s.autoInstallTimer = true) :
    tick s =
      if s.autoInstallCountdown - 1 ≤ 0 then
        { s with autoInstallCountdown := s.autoInstallCountdown - 1
                 published := s.published ++ [(s.autoInstallCountdown - 1, false)]
                 autoInstallTimer := false
                 installs := s.installs + 1 }
      else
        { s with autoInstallCountdown := s.autoInstallCountdown - 1
                 published := s.published ++ [(s.autoInstallCountdown - 1, false)] } := by
  rw [tick, if_pos h]
  by_cases hc : s.autoInstallCountdown - 1 ≤ 0
  · simp only [if_pos hc]
    rfl
  · simp only [if_neg hc]

/-- Running the interval for `n ≤ 5` ticks from any state whose countdown
was just (re)set to 5 with the interval armed. -/
lemma run_from (x : UpdaterState) (h1 : x.autoInstallTimer = true)
    (h2 : x.autoInstallCountdown = 5) :
    ∀ n, n ≤ 5 →
      tick^[n] x =
        { x with autoInstallCountdown := 5 - (n : Int)
                 autoInstallTimer := decide (n < 5)
                 published := x.published ++ tickPub n
                 installs := x.installs + (if n = 5 then 1 else 0) } := by
  intro n
  induction n with
  | zero =>
      intro _
      rw [Function.iterate_zero, id_eq]
      ext1 <;> simp [tickPub, h1, h2]
  | succ n ih =>
      intro h
      have hn5 : n < 5 := Nat.lt_of_succ_le h
      rw [Function.iterate_succ_apply', ih (Nat.le_of_succ_le h)]
      rw [tick_run (decide_eq_true hn5)]
      by_cases h5 : n + 1 = 5
      · have hn4 : n = 4 := by omega
        subst hn4
        rw [if_pos (by norm_num)]
        ext1 <;> simp [tickPub_succ]
      · have hne5 : n ≠ 5 := by omega
        rw [if_neg (by push_cast; omega)]
        ext1 <;> simp [tickPub_succ, List.append_assoc, h5, hne5] <;> omega

/-- A start followed by `n ≤ 5` interval ticks, described over the
pre-start state. -/
lemma run_le (s : UpdaterState) (n : Nat) (h : n ≤ 5) :
    tick^[n] (startAutoInstallCountdown s) =
      { s with autoInstallCountdown := 5 - (n : Int)
               autoInstallTimer := decide (n < 5)
               published := s.published ++ prefixPub n
               installs := s.installs + (if n = 5 then 1 else 0)
               countdownStarts := s.countdownStarts + 1 } := by
  rw [run_from (startAutoInstallCountdown s) rfl rfl n h]
  ext1 <;>
    simp [startAutoInstallCountdown, clearAutoInstallTimer, autoInstallDelaySeconds,
      prefixPub_eq_cons]

/-- After the fifth tick the interval is cleared, so any further tick
callbacks are never delivered. -/
lemma run_ge (s : UpdaterState) (n : Nat) (h : 5 ≤ n) :
    tick^[n] (startAutoInstallCountdown s) = tick^[5] (startAutoInstallCountdown s) := by
  obtain ⟨m, rfl⟩ : ∃ m, n = m + 5 := ⟨n - 5, by omega⟩
  rw [Function.iterate_add_apply]
  exact tickN_off (by rw [run_le s 5 le_rfl]; rfl) m

lemma prefixPub_chain_step (k : Nat) :
    List.Chain' (fun a b : Int × Bool => b.1 = a.1 - 1) (prefixPub k) := by
  rw [prefixPub, List.chain'_map, List.chain'_range_succ]
  intro m _
  push_cast
  ring

lemma prefixPub_chain_lt (k : Nat) :
    List.Chain' (fun a b : Int × Bool => b.1 < a.1) (prefixPub k) := by
  rw [prefixPub, List.chain'_map, List.chain'_range_succ]
  intro m _
  push_cast
  omega

lemma prefixPub_head (k : Nat) : (prefixPub k).head? = some ((5 : Int), false) := by
  rw [prefixPub_eq_cons]
  rfl

/-- Claim C2: `startAutoInstallCountdown` resets the counter to the fixed
delay 5 and publishes it as the initial tick; over any number `n` of
delivered interval ticks the published countdown events are exactly
`5, 4, …, max (5 - n) 0`, each tick decrementing the previous value by one
(hence a strictly decreasing sequence starting at 5), the run ends at 0
when it completes, and `quitAndInstall` is invoked exactly once — at the
tick that reaches 0 (the installs counter is `+1` exactly when `5 ≤ n`). -/
theorem countdown_run_spec (s : UpdaterState) (n : Nat) :
    (startAutoInstallCountdown s).autoInstallCountdown = 5 ∧
    (startAutoInstallCountdown s).published = s.published ++ [((5 : Int), false)] ∧
    (tick^[n] (startAutoInstallCountdown s)).published = s.published ++ pubOf n ∧
    (tick^[n] (startAutoInstallCountdown s)).installs
      = s.installs + (if 5 ≤ n then 1 else 0) ∧
    List.Chain' (fun a b : Int × Bool => b.1 = a.1 - 1) (pubOf n) ∧
    List.Chain' (fun a b : Int × Bool => b.1 < a.1) (pubOf n) ∧
    (pubOf n).head? = some ((5 : Int), false) ∧
    (5 ≤ n → (pubOf n).getLast? = some ((0 : Int), false)) := by
  refine ⟨rfl, rfl, ?_, ?_, prefixPub_chain_step _, prefixPub_chain_lt _,
    prefixPub_head _, ?_⟩
  · rcases le_or_lt n 5 with h | h
    · rw [run_le s n h, pubOf, Nat.min_eq_left h]
    · rw [run_ge s n (le_of_lt h), run_le s 5 le_rfl, pubOf,
        Nat.min_eq_right (le_of_lt h)]
  · rcases le_or_lt n 5 with h | h
    · rw [run_le s n h]
      show s.installs + (if n = 5 then 1 else 0)
        = s.installs + (if 5 ≤ n then 1 else 0)
      congr 1
      by_cases hn : n = 5
      · simp [hn]
      · simp [hn, show ¬5 ≤ n by omega]
    · rw [run_ge s n (le_of_lt h), run_le s 5 le_rfl]
      show s.installs + (if (5 : Nat) = 5 then 1 else 0)
        = s.installs + (if 5 ≤ n then 1 else 0)
      simp [le_of_lt h]
  · intro h
    rw [pubOf, Nat.min_eq_right h]
    decide

/-- Claim C2 (witness): a complete run of five ticks ends at 0. -/
theorem countdown_run_spec_witness :
    (pubOf 5).getLast? = some ((0 : Int), false) :=
  (countdown_run_spec (initialState true) 5).2.2.2.2.2.2.2 (le_refl 5)

lemma cancel_fields (s : UpdaterState) :
    (cancelAutoInstall s).published = s.published ++ [((-1 : Int), true)] ∧
    (cancelAutoInstall s).installs = s.installs ∧
    (cancelAutoInstall s).autoInstallTimer = false := by
  cases h : s.squirrelFallbackTimer <;>
    simp [cancelAutoInstall, clearSquirrelFallbackTimer, clearAutoInstallTimer, h]

lemma prefixPub_filter (k : Nat) :
    (prefixPub k).filter (fun e => e.2) = [] := by
  rw [prefixPub, List.filter_map]
  simp [Function.comp]

/-- Claim C3: cancelling after `k < 5` delivered ticks stops the run: the
whole event stream of the instance is the `k + 1` tick events followed by a
single `(-1, cancelled)` sentinel (so nothing is published after the
cancel, and the sentinel is the unique cancelled event), `quitAndInstall`
is never invoked, and the interval stays cleared no matter how many more
tick callbacks `m` the event loop would deliver. -/
theorem cancel_before_expiry (s : UpdaterState) (k m : Nat) (hk : k < 5) :
    (tick^[m] (cancelAutoInstall (tick^[k] (startAutoInstallCountdown s)))).published
      = s.published ++ prefixPub k ++ [((-1 : Int), true)] ∧
    (tick^[m] (cancelAutoInstall (tick^[k] (startAutoInstallCountdown s)))).installs
      = s.installs ∧
    (tick^[m] (cancelAutoInstall (tick^[k] (startAutoInstallCountdown s)))).autoInstallTimer
      = false ∧
    ((prefixPub k ++ [((-1 : Int), true)]).filter (fun e => e.2)).length = 1 := by
  have h2 := run_le s k (le_of_lt hk)
  have hc := cancel_fields (tick^[k] (startAutoInstallCountdown s))
  rw [tickN_off hc.2.2 m]
  refine ⟨?_, ?_, hc.2.2, ?_⟩
  · rw [hc.1, h2]
  · rw [hc.2.1, h2]
    show s.installs + (if k = 5 then 1 else 0) = s.installs
    simp [show k ≠ 5 by omega]
  · rw [List.filter_append, prefixPub_filter]
    rfl

/-- Claim C3 (witness): cancel after two ticks, then three more tick
callbacks: stream is `5, 4, 3, (-1, cancelled)` and nothing is installed. -/
theorem cancel_before_expiry_witness :
    (tick^[3] (cancelAutoInstall
        (tick^[2] (startAutoInstallCountdown (initialState true))))).published
      = (initialState true).published ++ prefixPub 2 ++ [((-1 : Int), true)] ∧
    (tick^[3] (cancelAutoInstall
        (tick^[2] (startAutoInstallCountdown (initialState true))))).installs
      = (initialState true).installs := by
  have h := cancel_before_expiry (initialState true) 2 3 (by omega)
  exact ⟨h.1, h.2.1⟩

/-- Claim C1: on the two-phase (darwin) platform with auto-download on and
Squirrel not yet ready, a `downloaded` event arms the staging wait without
starting the countdown, and then: if the native-ready signal fires first,
the countdown starts at that very step (spy counter `+1`, initial `5`
published), the fallback timer is cancelled (no timeout remains scheduled),
and any later fallback-timer callback is a literal no-op; if the fallback
timer fires first, the countdown starts exactly once at that step, and a
native-ready signal arriving a moment later only records Squirrel
readiness — it does not start the countdown again. -/
theorem staging_race_starts_once (s : UpdaterState) (i : Nat)
    (hplat : s.darwin = true) (hready : s.nativeSquirrelReady = false)
    (hauto : s.autoDownload = true) (htimer : s.autoInstallTimer = false)
    (hlis : s.onReadyListeners = []) (hpend : s.pendingFallbacks = []) :
    (applyOcc s (.downloadedEvt i)).countdownStarts = s.countdownStarts ∧
    (applyOcc s (.downloadedEvt i)).autoInstallTimer = false ∧
    ((applyOcc (applyOcc s (.downloadedEvt i)) .nativeReady).countdownStarts
        = s.countdownStarts + 1 ∧
      (applyOcc (applyOcc s (.downloadedEvt i)) .nativeReady).autoInstallTimer = true ∧
      (applyOcc (applyOcc s (.downloadedEvt i)) .nativeReady).published
        = s.published ++ [((5 : Int), false)] ∧
      (applyOcc (applyOcc s (.downloadedEvt i)) .nativeReady).pendingFallbacks = [] ∧
      (applyOcc (applyOcc s (.downloadedEvt i)) .nativeReady).squirrelFallbackTimer
        = none ∧
      ∀ g, applyOcc (applyOcc (applyOcc s (.downloadedEvt i)) .nativeReady) (.fallback g)
          = applyOcc (applyOcc s (.downloadedEvt i)) .nativeReady) ∧
    ((applyOcc (applyOcc s (.downloadedEvt i)) (.fallback s.nextId)).countdownStarts
        = s.countdownStarts + 1 ∧
      (applyOcc (applyOcc s (.downloadedEvt i)) (.fallback s.nextId)).autoInstallTimer
        = true ∧
      (applyOcc (applyOcc s (.downloadedEvt i)) (.fallback s.nextId)).published
        = s.published ++ [((5 : Int), false)] ∧
      applyOcc (applyOcc (applyOcc s (.downloadedEvt i)) (.fallback s.nextId)) .nativeReady
        = { applyOcc (applyOcc s (.downloadedEvt i)) (.fallback s.nextId) with
              nativeSquirrelReady := true }) := by
  simp [applyOcc, updateStatus, waitForSquirrelThenAutoInstall, nativeReadyFires,
    onReadyBody, clearSquirrelFallbackTimer, startAutoInstallCountdown,
    clearAutoInstallTimer, fallbackFires, autoInstallDelaySeconds,
    hplat, hready, hauto, htimer, hlis, hpend]

/-- Claim C1 (witness): concrete two-phase run where native-ready fires
first. -/
theorem staging_race_starts_once_witness :
    (applyOcc (applyOcc (applyOcc (initialState true) (.setAutoDownload true))
        (.downloadedEvt 7)) .nativeReady).countdownStarts
      = (applyOcc (initialState true) (.setAutoDownload true)).countdownStarts + 1 :=
  (staging_race_starts_once (applyOcc (initialState true) (.setAutoDownload true)) 7
    rfl rfl rfl rfl rfl rfl).2.2.1.1

lemma installs_after_five {x : UpdaterState} (h1 : x.autoInstallTimer = true)
    (h2 : x.autoInstallCountdown = 5) : (tick^[5] x).installs = x.installs + 1 := by
  rw [run_from x h1 h2 5 le_rfl]
  simp

/-- Claim C10: the cancellation flag is scoped to one downloaded cycle.
Every entry into the staging wait resets `autoInstallCancelled` to `false`;
and after a `cancelAutoInstall`, a later `downloaded` cycle still runs: on
the two-phase path the native-ready signal starts the countdown (spy
counter `+1`) and five ticks later the install fires, and on the
single-phase path the countdown starts directly regardless of the flag's
value and likewise installs after five ticks. -/
theorem cancel_scoped_per_cycle (s : UpdaterState) (i : Nat)
    (hplat : s.darwin = true) (hready : s.nativeSquirrelReady = false)
    (hauto : s.autoDownload = true) (hlis : s.onReadyListeners = [])
    (hpend : s.pendingFallbacks = []) (hfb : s.squirrelFallbackTimer = none) :
    (waitForSquirrelThenAutoInstall s).autoInstallCancelled = false ∧
    (applyOcc (applyOcc (cancelAutoInstall s) (.downloadedEvt i))
        .nativeReady).countdownStarts = s.countdownStarts + 1 ∧
    (tick^[5] (applyOcc (applyOcc (cancelAutoInstall s) (.downloadedEvt i))
        .nativeReady)).installs = s.installs + 1 ∧
    (∀ t : UpdaterState, ∀ b : Bool, t.darwin = false → t.autoDownload = true →
      (applyOcc { t with autoInstallCancelled := b }
          (.downloadedEvt i)).countdownStarts = t.countdownStarts + 1 ∧
      (tick^[5] (applyOcc { t with autoInstallCancelled := b }
          (.downloadedEvt i))).installs = t.installs + 1) := by
  have hx1 : (applyOcc (applyOcc (cancelAutoInstall s) (.downloadedEvt i))
      .nativeReady).autoInstallTimer = true := by
    simp [applyOcc, updateStatus, waitForSquirrelThenAutoInstall, nativeReadyFires,
      onReadyBody, clearSquirrelFallbackTimer, startAutoInstallCountdown,
      clearAutoInstallTimer, cancelAutoInstall, hplat, hready, hauto, hlis, hpend, hfb]
  have hx2 : (applyOcc (applyOcc (cancelAutoInstall s) (.downloadedEvt i))
      .nativeReady).autoInstallCountdown = 5 := by
    simp [applyOcc, updateStatus, waitForSquirrelThenAutoInstall, nativeReadyFires,
      onReadyBody, clearSquirrelFallbackTimer, startAutoInstallCountdown,
      clearAutoInstallTimer, cancelAutoInstall, autoInstallDelaySeconds,
      hplat, hready, hauto, hlis, hpend, hfb]
  refine ⟨rfl, ?_, ?_, ?_⟩
  · simp [applyOcc, updateStatus, waitForSquirrelThenAutoInstall, nativeReadyFires,
      onReadyBody, clearSquirrelFallbackTimer, startAutoInstallCountdown,
      clearAutoInstallTimer, cancelAutoInstall, hplat, hready, hauto, hlis, hpend, hfb]
  · rw [installs_after_five hx1 hx2]
    simp [applyOcc, updateStatus, waitForSquirrelThenAutoInstall, nativeReadyFires,
      onReadyBody, clearSquirrelFallbackTimer, startAutoInstallCountdown,
      clearAutoInstallTimer, cancelAutoInstall, hplat, hready, hauto, hlis, hpend, hfb]
  · intro t b hd ha
    have ht1 : (applyOcc { t with autoInstallCancelled := b }
        (.downloadedEvt i)).autoInstallTimer = true := by
      simp [applyOcc, updateStatus, startAutoInstallCountdown, clearAutoInstallTimer,
        hd, ha]
    have ht2 : (applyOcc { t with autoInstallCancelled := b }
        (.downloadedEvt i)).autoInstallCountdown = 5 := by
      simp [applyOcc, updateStatus, startAutoInstallCountdown, clearAutoInstallTimer,
        autoInstallDelaySeconds, hd, ha]
    refine ⟨?_, ?_⟩
    · simp [applyOcc, updateStatus, startAutoInstallCountdown, clearAutoInstallTimer,
        hd, ha]
    · rw [installs_after_five ht1 ht2]
      simp [applyOcc, updateStatus, startAutoInstallCountdown, clearAutoInstallTimer,
        hd, ha]

/-- Claim C10 (witness): concrete later cycle after a cancel on the
two-phase platform. -/
theorem cancel_scoped_per_cycle_witness :
    (tick^[5] (applyOcc (applyOcc
        (cancelAutoInstall (applyOcc (initialState true) (.setAutoDownload true)))
        (.downloadedEvt 4)) .nativeReady)).installs
      = (applyOcc (initialState true) (.setAutoDownload true)).installs + 1 :=
  (cancel_scoped_per_cycle (applyOcc (initialState true) (.setAutoDownload true)) 4
    rfl rfl rfl rfl rfl rfl).2.2.1

/-- The double-downloaded scenario of claim C4: auto-download on, two
`downloaded` events before the first staging wait resolves, then the
native-ready signal, a full countdown, the orphaned first fallback timeout,
and a second full countdown. -/
def doubleCycleTrace : List Occ :=
  [.downloadedEvt 0, .downloadedEvt 1, .nativeReady,
   .tick, .tick, .tick, .tick, .tick,
   .fallback 0,
   .tick, .tick, .tick, .tick, .tick]

/-- Claim C4 (refuting evaluation): after the second `downloaded` event two
fallback timeouts are scheduled at once — `waitForSquirrelThenAutoInstall`
overwrites `squirrelFallbackTimer` without clearing the previous timeout —
and on the trace above `quitAndInstall` fires twice: the orphaned first
timeout survives the first cycle's install and restarts the countdown. -/
theorem double_downloaded_double_install :
    (applyOccs (applyOcc (initialState true) (.setAutoDownload true))
        [.downloadedEvt 0, .downloadedEvt 1]).pendingFallbacks = [0, 1] ∧
    (applyOccs (applyOcc (initialState true) (.setAutoDownload true))
        doubleCycleTrace).installs = 2 := by
  exact ⟨by decide, by decide⟩

/-- Claim C6: when the external check resolves to `null` (the unpackaged /
dev-build case), `checkForUpdates` forces an `error` status carrying the
fixed dev-mode message and returns no update without raising; a transport
failure instead carries its own message, so the two are distinguishable
whenever the failure message differs from the fixed string. -/
theorem check_no_result_dev_mode (s : UpdaterState) (ev : List Occ) :
    (checkForUpdates s (.returnsNull ev)).1.status.status = .error ∧
    (checkForUpdates s (.returnsNull ev)).1.status.error = some devModeMsg ∧
    (checkForUpdates s (.returnsNull ev)).2 = Except.ok none ∧
    (∀ m : String,
      (checkForUpdates s (.raises ev m)).1.status.error = some m) := by
  refine ⟨?_, ?_, rfl, ?_⟩ <;>
    simp [checkForUpdates, updateStatus, mergeStatus, Option.or]

/-- Claim C7: when the external check rejects with message `m`,
`checkForUpdates` records an `error` status carrying `m` and re-raises the
same failure to its caller. -/
theorem check_raises_reraises (s : UpdaterState) (ev : List Occ) (m : String) :
    (checkForUpdates s (.raises ev m)).1.status.status = .error ∧
    (checkForUpdates s (.raises ev m)).1.status.error = some m ∧
    (checkForUpdates s (.raises ev m)).2 = Except.error m := by
  refine ⟨?_, ?_, rfl⟩ <;>
    simp [checkForUpdates, updateStatus, mergeStatus, Option.or]

/-- Claim C8: every `checkForUpdates` call leaves the tracker in a terminal
status — never `checking` (nor the pre-check `idle`); in particular a
normal resolution that finds the status still `checking`/`idle` forces a
`not-available` transition. -/
theorem check_terminal_status (s : UpdaterState) (o : CheckOutcome) :
    (checkForUpdates s o).1.status.status ≠ .checking ∧
    (checkForUpdates s o).1.status.status ≠ .idle ∧
    (∀ ev info,
      ((applyOccs s ev).status.status = .checking ∨
          (applyOccs s ev).status.status = .idle) →
        (checkForUpdates s (.returnsResult ev info)).1.status.status
          = .notAvailable) := by
  refine ⟨?_, ?_, ?_⟩
  · cases o with
    | raises ev m => simp [checkForUpdates, updateStatus, mergeStatus]
    | returnsNull ev => simp [checkForUpdates, updateStatus, mergeStatus]
    | returnsResult ev info =>
        by_cases h : (applyOccs s ev).status.status = .checking ∨
            (applyOccs s ev).status.status = .idle
        · simp [checkForUpdates, h, updateStatus, mergeStatus]
        · simp only [checkForUpdates, if_neg h]
          exact (not_or.mp h).1
  · cases o with
    | raises ev m => simp [checkForUpdates, updateStatus, mergeStatus]
    | returnsNull ev => simp [checkForUpdates, updateStatus, mergeStatus]
    | returnsResult ev info =>
        by_cases h : (applyOccs s ev).status.status = .checking ∨
            (applyOccs s ev).status.status = .idle
        · simp [checkForUpdates, h, updateStatus, mergeStatus]
        · simp only [checkForUpdates, if_neg h]
          exact (not_or.mp h).2
  · intro ev info h
    simp [checkForUpdates, if_pos h, updateStatus, mergeStatus]

/-- Claim C8 (witness): a check on the fresh (idle) updater that resolves
normally without events ends in `not-available`. -/
theorem check_terminal_status_witness :
    (checkForUpdates (initialState false) (.returnsResult [] none)).1.status.status
      = StatusTag.notAvailable :=
  (check_terminal_status (initialState false) (.returnsResult [] none)).2.2
    [] none (Or.inr rfl)

/-- The payload invariant that actually holds of every reachable status:
the payload field determined by the current tag is present (`downloading`
carries a progress value, `error` carries a message, `available` and
`downloaded` carry version info); fields set by earlier transitions are
merely carried over by the spread merge, not cleared. -/
def PayloadInv (u : UpdateStatus) : Prop :=
  (u.status = .downloading → u.progress.isSome = true) ∧
  (u.status = .error → u.error.isSome = true) ∧
  ((u.status = .available ∨ u.status = .downloaded) → u.info.isSome = true)

lemma clearSquirrel_status (s : UpdaterState) :
    (clearSquirrelFallbackTimer s).status = s.status := by
  cases h : s.squirrelFallbackTimer <;> simp [clearSquirrelFallbackTimer, h]

lemma onReadyBody_status (s : UpdaterState) :
    (onReadyBody s).status = s.status := by
  rw [onReadyBody]
  split
  · exact clearSquirrel_status s
  · rw [show (startAutoInstallCountdown (clearSquirrelFallbackTimer s)).status
        = (clearSquirrelFallbackTimer s).status from rfl]
    exact clearSquirrel_status s

lemma foldl_onReadyBody_status (ls : List Nat) :
    ∀ t : UpdaterState, (ls.foldl (fun t _ => onReadyBody t) t).status = t.status := by
  induction ls with
  | nil => intro t; rfl
  | cons a ls ih =>
      intro t
      rw [List.foldl_cons, ih]
      exact onReadyBody_status t

lemma nativeReadyFires_status (s : UpdaterState) :
    (nativeReadyFires s).status = s.status := by
  rw [nativeReadyFires, foldl_onReadyBody_status]

lemma fallbackFires_status (g : Nat) (s : UpdaterState) :
    (fallbackFires g s).status = s.status := by
  simp [fallbackFires, startAutoInstallCountdown, clearAutoInstallTimer,
    apply_ite UpdaterState.status]

lemma applyOcc_payloadInv {s : UpdaterState} (h : PayloadInv s.status) (o : Occ) :
    PayloadInv (applyOcc s o).status := by
  cases o with
  | checking => simp [applyOcc, updateStatus, mergeStatus, PayloadInv, h.2.2]
  | available i => simp [applyOcc, updateStatus, mergeStatus, PayloadInv]
  | notAvailable i => simp [applyOcc, updateStatus, mergeStatus, PayloadInv]
  | progress p => simp [applyOcc, updateStatus, mergeStatus, PayloadInv]
  | downloadedEvt i =>
      have hst : (applyOcc s (.downloadedEvt i)).status
          = mergeStatus s.status { status := some .downloaded, info := some i } := by
        simp only [applyOcc, updateStatus]
        split
        · split
          · rfl
          · rfl
        · rfl
      rw [hst]
      simp [mergeStatus, PayloadInv]
  | errorEvt m => simp [applyOcc, updateStatus, mergeStatus, PayloadInv]
  | nativeReady =>
      have e : (applyOcc s Occ.nativeReady).status = s.status := nativeReadyFires_status s
      rw [e]
      exact h
  | fallback g =>
      have e : (applyOcc s (Occ.fallback g)).status = s.status := fallbackFires_status g s
      rw [e]
      exact h
  | tick =>
      have e : (applyOcc s Occ.tick).status = s.status := by
        simp [applyOcc, tick, quitAndInstall, clearAutoInstallTimer,
          apply_ite UpdaterState.status]
      rw [e]
      exact h
  | cancel =>
      have e : (applyOcc s Occ.cancel).status = s.status := by
        simp [applyOcc, cancelAutoInstall, clearAutoInstallTimer, clearSquirrel_status]
      rw [e]
      exact h
  | setAutoDownload b => exact h

lemma applyOccs_payloadInv {s : UpdaterState} (h : PayloadInv s.status) (os : List Occ) :
    PayloadInv (applyOccs s os).status := by
  induction os generalizing s with
  | nil => exact h
  | cons o os ih => exact ih (applyOcc_payloadInv h o)

lemma applyAct_payloadInv {s : UpdaterState} (h : PayloadInv s.status) (a : Act) :
    PayloadInv (applyAct s a).status := by
  cases a with
  | occ o => exact applyOcc_payloadInv h o
  | check c =>
      cases c with
      | raises ev m =>
          simp [applyAct, checkForUpdates, updateStatus, mergeStatus, PayloadInv]
      | returnsNull ev =>
          simp [applyAct, checkForUpdates, updateStatus, mergeStatus, PayloadInv]
      | returnsResult ev info =>
          by_cases hc : (applyOccs s ev).status.status = .checking ∨
              (applyOccs s ev).status.status = .idle
          · simp [applyAct, checkForUpdates, hc, updateStatus, mergeStatus, PayloadInv]
          · simp only [applyAct, checkForUpdates, if_neg hc]
            exact applyOccs_payloadInv h ev

lemma applyActs_payloadInv {s : UpdaterState} (h : PayloadInv s.status) (tr : List Act) :
    PayloadInv (applyActs s tr).status := by
  induction tr generalizing s with
  | nil => exact h
  | cons a tr ih => exact ih (applyAct_payloadInv h a)

/-- Claim C9 (counterexample): the spread merge does not clear stale
payload fields, so the payload shape is *not* determined by the tag: after
a `download-progress` event followed by an `update-downloaded` event, the
tag is `downloaded` but the old progress value is still present. -/
theorem status_payload_claim_false :
    (applyActs (initialState false)
        [.occ (.progress 7), .occ (.downloadedEvt 3)]).status.status
      = StatusTag.downloaded ∧
    (applyActs (initialState false)
        [.occ (.progress 7), .occ (.downloadedEvt 3)]).status.progress
      = some 7 := by
  exact ⟨rfl, rfl⟩

/-- Claim C9 (amended): every transition establishes the payload field of
its own tag, so in every reachable state the tag-determined field is
present — but fields from earlier statuses may persist under a different
tag (and the defensive `not-available` fallback of `checkForUpdates` sets
no version info), because the spread merge keeps unmentioned keys. -/
theorem status_payload_invariant (d : Bool) (tr : List Act) :
    PayloadInv (applyActs (initialState d) tr).status := by
  have h0 : PayloadInv (initialState d).status := by
    refine ⟨?_, ?_, ?_⟩ <;> intro hx <;> simp [initialState] at hx
  exact applyActs_payloadInv h0 tr

/-- Claim C9 (witness): after a `download-progress` event the reachable
state's tag is `downloading` and a progress value is indeed present. -/
theorem status_payload_invariant_witness :
    (applyActs (initialState false) [.occ (.progress 7)]).status.progress.isSome
      = true :=
  (status_payload_invariant false [.occ (.progress 7)]).1 rfl

end ClawXUpdater
